import Mathlib

/-!
Verification development for the voice-keyboard slice-transcription pipeline.

Shallow embedding conventions:
* JavaScript strings are modelled as Lean `String` (ASCII inputs: `toLowerCase`,
  `trim`, `slice` agree with the character-level models below).
* Floating-point sample math is modelled over `ℚ`; the one square root in the
  voice-activity gate is eliminated by the equivalence
  `Real.sqrt x ≥ t ↔ x ≥ t ^ 2` for `t ≥ 0`, which holds for the positive
  thresholds used by the code.
* Browser/network effects (fetch results, `decodeAudioData`, the delegated
  validation model call) are passed in as explicit oracle arguments.
-/

namespace VoiceKeyboard

/-- The ASCII whitespace characters matched by the JavaScript regex `\s`
(the sources only ever feed ASCII text through these paths). -/
def isJsWs (c : Char) : Bool :=
  c = ' ' || c = '\t' || c = '\n' || c = '\r' || c = '\x0b' || c = '\x0c'

/-- `String.prototype.toLowerCase` on ASCII text. -/
def jsToLower (s : String) : String :=
  String.mk (s.data.map Char.toLower)

/-- `String.prototype.trim`. -/
def jsTrim (s : String) : String :=
  String.mk (((s.data.dropWhile isJsWs).reverse.dropWhile isJsWs).reverse)

/-- `String.prototype.startsWith`. -/
def jsStartsWith (s pre : String) : Bool :=
  pre.data.isPrefixOf s.data

/-- `s.slice(n)` for a nonnegative start index. -/
def jsDrop (s : String) (n : Nat) : String :=
  String.mk (s.data.drop n)

/-- `s.slice(-n)`: the last `n` characters — except that JavaScript turns
`-0` back into `0`, so `n = 0` yields the whole string. -/
def jsSliceNeg (s : String) (n : Nat) : String :=
  if n = 0 then s else String.mk ((s.data.reverse.take n).reverse)

/-- Walker for `s.split(/\s+/)`: `skipping` records being inside a
whitespace run (the token before it already emitted), `cur` holds the
current token's characters in reverse. -/
def jsSplitWsAux (skipping : Bool) (cur : List Char) : List Char → List String
  | [] => if skipping then [""] else [String.mk cur.reverse]
  | c :: rest =>
    if isJsWs c then
      if skipping then jsSplitWsAux true cur rest
      else String.mk cur.reverse :: jsSplitWsAux true [] rest
    else jsSplitWsAux false (c :: cur) rest

/-- `s.split(/\s+/)`: split on maximal whitespace runs; a leading (resp.
trailing) run contributes an empty first (resp. last) token, and the empty
string splits to `[""]`, exactly as in JavaScript. -/
def jsSplitWs (s : String) : List String :=
  jsSplitWsAux false [] s.data

/-- `Math.ceil(n * 0.7)` for the word counts `3 ≤ n ≤ 10` reachable in
`removeDuplicatesHeuristic` (checked against IEEE-754 double rounding:
the product only lands on an integer at `n = 10`, where it is exactly `7`). -/
def jsCeil70 (n : Nat) : Nat := (7 * n + 9) / 10

/-- `arr.slice(-n)` on arrays, for the `n ≥ 1` call sites. -/
def jsSliceNegList (l : List String) (n : Nat) : List String :=
  ((l.reverse.take n).reverse)

/-- `arr.join(' ')`. -/
def joinSpace : List String → String
  | [] => ""
  | [w] => w
  | w :: rest => w ++ " " ++ joinSpace rest

/-- `removeDuplicatesHeuristic` from `src/app/api/transcribe/route.ts`
(lines 45–94).  `previousContext` is `string | null`; JavaScript truthiness
makes `null` and `""` both skip the whole body. -/
def removeDuplicatesHeuristic (text : String) (previousContext : Option String) : String :=
  match previousContext with
  | none => text
  | some prev =>
    if prev = "" || text = "" then text
    else
      let prevLower := jsTrim (jsToLower prev)
      let textLower := jsTrim (jsToLower text)
      -- Case 1: exact duplicate
      if textLower = prevLower then ""
      -- Case 2: new text starts with the entire previous context
      else if jsStartsWith textLower prevLower then
        jsTrim (jsDrop text prev.data.length)
      else
        -- Case 3: new text starts with the trailing overlap of the context
        let overlapCheckLength := Nat.min 50 (prev.data.length / 2)
        let prevSuffix := jsSliceNeg prevLower overlapCheckLength
        if jsStartsWith textLower prevSuffix then
          jsTrim (jsDrop text overlapCheckLength)
        else
          -- Case 4: word-level overlap at the start
          let prevWords := jsSplitWs prev
          let textWords := jsSplitWs text
          if prevWords.length ≥ 3 then
            let lastNWords := jsSliceNegList prevWords (Nat.min 10 prevWords.length)
            let overlapCount :=
              (lastNWords.enum.countP fun iw =>
                match textWords[iw.1]? with
                | some tw => jsToLower tw == jsToLower iw.2
                | none => false)
            if overlapCount ≥ jsCeil70 lastNWords.length then
              joinSpace (textWords.drop overlapCount)
            else text
          else text

/-- JavaScript `\w` characters (`[A-Za-z0-9_]`). -/
def isJsWordChar (c : Char) : Bool :=
  c.isAlphanum || c = '_'

/-- `new Set(sN.split(/\s+/))` in `calculateSimilarity`: the distinct words
of the lower-cased, punctuation-stripped (`replace(/[^\w\s]/g, '')`) string.
`Set` membership/size are modelled by `List.dedup`. -/
def wordSet (s : String) : List String :=
  (jsSplitWs (String.mk ((jsToLower s).data.filter fun c => isJsWordChar c || isJsWs c))).dedup

/-- `intersection.size` in `calculateSimilarity`. -/
def interCount (str1 str2 : String) : Nat :=
  (wordSet str1).countP fun w => (wordSet str2).contains w

/-- `union.size` in `calculateSimilarity`. -/
def unionCount (str1 str2 : String) : Nat :=
  ((wordSet str1) ++ (wordSet str2)).dedup.length

/-- `calculateSimilarity` from `src/app/api/transcribe/route.ts` (lines 99–112):
bag-of-words intersection-over-union of the word sets. -/
def calculateSimilarity (str1 str2 : String) : ℚ :=
  if str1 = "" || str2 = "" then 0
  else (interCount str1 str2 : ℚ) / (unionCount str1 str2 : ℚ)

/-! ## Reassembly (`src/hooks/useTranscription.ts`, `reassembleText`, lines 43–63) -/

/-- `fullText.endsWith(' ')`: a one-character suffix test is a test on the
last character. -/
def endsWithSpace (s : String) : Bool :=
  s.data.getLast? == some ' '

/-- `sliceText.startsWith(' ')`. -/
def startsWithSpace (s : String) : Bool :=
  s.data.head? == some ' '

/-- One step of `Array.prototype.sort((a, b) => a - b)` modelled as insertion
sort (the keys of a JS `Map<number, _>` are unique, so any comparison sort
yields the same ascending list). -/
def insertSorted (k : Nat) : List Nat → List Nat
  | [] => [k]
  | x :: xs => if k ≤ x then k :: x :: xs else x :: insertSorted k xs

def sortAsc (l : List Nat) : List Nat :=
  l.foldr insertSorted []

/-- `sliceTexts.get(index) || ""` on the association-list model of the
`Map<number, string>`. -/
def mapGet (m : List (Nat × String)) (k : Nat) : String :=
  ((m.find? fun e => e.1 == k).map Prod.snd).getD ""

/-- The loop body of `reassembleText`: skip empty fragments, otherwise append
with a separating space exactly when the accumulated text is nonempty and
neither it ends with `' '` nor the fragment starts with `' '`. -/
def appendFrag (fullText sliceText : String) : String :=
  if 0 < sliceText.data.length then
    let needsSpace := decide (0 < fullText.data.length)
      && !(endsWithSpace fullText) && !(startsWithSpace sliceText)
    fullText ++ (if needsSpace then " " else "") ++ sliceText
  else fullText

/-- `reassembleText` over the association-list model of `sliceTextsRef`. -/
def reassembleText (m : List (Nat × String)) : String :=
  (sortAsc (m.map Prod.fst)).foldl (fun acc k => appendFrag acc (mapGet m k)) ""

/-- Declarative join used to state what reassembly computes: fragments in
order, with the separator between consecutive fragments decided by the
boundary tests `endW` (on the earlier fragment) and `startW` (on the later
one).  `e` carries `endW` of the previous fragment. -/
def specJoinAuxP (endW startW : String → Bool) (e : Bool) : List String → String
  | [] => ""
  | g :: rest => (if e || startW g then "" else " ") ++ g ++ specJoinAuxP endW startW (endW g) rest

def specJoinP (endW startW : String → Bool) : List String → String
  | [] => ""
  | g :: rest => g ++ specJoinAuxP endW startW (endW g) rest

/-- Last character is whitespace (the claim's reading of "already whitespace"). -/
def lastCharWhite (s : String) : Bool :=
  match s.data.getLast? with
  | some c => c.isWhitespace
  | none => false

/-- First character is whitespace. -/
def headCharWhite (s : String) : Bool :=
  match s.data.head? with
  | some c => c.isWhitespace
  | none => false

/-- Formalization of claim C1's own wording ("… is already whitespace"):
concatenate the stored texts in ascending key order, empty fragments
dropped, separating space only where neither boundary is whitespace.
Written from the claim text, for comparison against `reassembleText`. -/
def reassembleClaimWhitespace (m : List (Nat × String)) : String :=
  specJoinP lastCharWhite headCharWhite
    (((sortAsc (m.map Prod.fst)).map (mapGet m)).filter fun t => 0 < t.data.length)

/-! ## Recorder / slicer (`src/hooks/useAudioRecorder.ts`)

The MediaRecorder pipeline is collapsed to the refs the hook manipulates:
buffered chunk sizes, the slice counter, the produced slices (index paired
with blob size, in `onSliceCreated` order), and the `pendingSlice` /
recording / paused flags.  `ondataavailable` deliveries are explicit events. -/

structure RecorderState where
  chunks : List Nat
  sliceCount : Nat
  produced : List (Nat × Nat)
  pendingSlice : Bool
  recording : Bool
  paused : Bool
deriving DecidableEq, Repr

/-- `finalizeSlice` (lines 54–81): with buffered chunks, emit a slice carrying
the next index and bump the counter; with no chunks, only log a warning and
clear `pendingSlice` — no slice is produced and no index is consumed. -/
def finalizeSlice (st : RecorderState) : RecorderState :=
  if 0 < st.chunks.length then
    { st with
      produced := st.produced ++ [(st.sliceCount, st.chunks.sum)]
      sliceCount := st.sliceCount + 1
      chunks := []
      pendingSlice := false }
  else
    { st with pendingSlice := false }

/-- The `ondataavailable` handler (attached in `startRecording`,
`createAudioSlice` and `resumeRecording`, identical in all three): size-zero
events are ignored; otherwise buffer the chunk and, if a slice boundary is
pending, finalize immediately. -/
def onDataAvailable (st : RecorderState) (size : Nat) : RecorderState :=
  if 0 < size then
    let st1 := { st with chunks := st.chunks ++ [size] }
    if st1.pendingSlice then finalizeSlice st1 else st1
  else st

/-- `createAudioSlice` (lines 83–124): at a boundary tick while actively
recording, mark the slice pending and stop the recorder (the flushed data
arrives later as an `ondataavailable` event; the restart is state-neutral
here). -/
def createAudioSlice (st : RecorderState) : RecorderState :=
  if st.recording && !st.paused then { st with pendingSlice := true } else st

def pauseRecording (st : RecorderState) : RecorderState :=
  if st.recording && !st.paused then { st with pendingSlice := true, paused := true } else st

def resumeRecording (st : RecorderState) : RecorderState :=
  if st.recording && st.paused then { st with paused := false } else st

def stopRecording (st : RecorderState) : RecorderState :=
  if st.recording then { st with pendingSlice := true, recording := false, paused := false } else st

inductive RecEvent
  | data (size : Nat)
  | tick
  | pauseEv
  | resumeEv
  | stopEv

def stepRec (st : RecorderState) : RecEvent → RecorderState
  | .data size => onDataAvailable st size
  | .tick => createAudioSlice st
  | .pauseEv => pauseRecording st
  | .resumeEv => resumeRecording st
  | .stopEv => stopRecording st

/-- State right after `startRecording` succeeded: chunks cleared, slice
counter reset to 0, nothing produced yet. -/
def initRecorder : RecorderState :=
  ⟨[], 0, [], false, true, false⟩

/-! ## Slice status and the transcription hook state
(`src/hooks/useTranscription.ts`) -/

inductive SliceStatusKind
  | pending
  | processing
  | completed
  | error
  | skipped
deriving DecidableEq, Repr

def isTerminal : SliceStatusKind → Bool
  | .completed => true
  | .error => true
  | .skipped => true
  | _ => false

/-- The hook's mutable state: status entries, per-slice texts, the active
request indices (keys of `activeRequestsRef`), displayed/accumulated text,
the transcribing flag and the error channel. -/
structure TranscriptionState where
  statuses : List (Nat × SliceStatusKind)
  sliceTexts : List (Nat × String)
  active : List Nat
  transcribedText : String
  processedText : String
  isTranscribing : Bool
  errorMsg : Option String
deriving DecidableEq

/-- `reset` (lines 406–423): abort every outstanding request and clear all
maps and flags.  The aborts themselves surface later in each in-flight
worker as its `AbortError` branch (`handleAbortError`). -/
def resetTranscription (_st : TranscriptionState) : TranscriptionState :=
  ⟨[], [], [], "", "", false, none⟩

/-- The `AbortError` branch of `processSliceRealtime` (lines 353–364): remove
this slice from the active-request set, clear the transcribing flag if that
was the last one, and return — statuses, texts and the error channel are not
touched. -/
def handleAbortError (st : TranscriptionState) (sliceIndex : Nat) : TranscriptionState :=
  let active := st.active.erase sliceIndex
  { st with
    active := active
    isTranscribing := if active.isEmpty then false else st.isTranscribing }

/-! ## Real-time retry loop (`processSliceRealtime`, lines 249–401) -/

/-- What one attempt of the loop body observes: the voice-activity gate
rejecting the slice, a successful response text, an abort, or a thrown /
non-OK failure with its message. -/
inductive AttemptResult
  | vadSkip
  | ok (text : String)
  | aborted
  | fail (msg : String)

/-- Terminal effect of the loop on the slice: status `skipped` with empty
text, status `completed` with the response text, removal from the active set
with no status change (abort), or status `error` with the last message. -/
inductive SliceOutcome
  | skipped
  | completed (text : String)
  | abortedOut
  | errored (msg : String)
deriving DecidableEq

def MAX_RETRIES : Nat := 2

/-- `pat` occurs as a contiguous run inside `l`. -/
def containsSub (pat : List Char) : List Char → Bool
  | [] => pat.isEmpty
  | c :: rest => pat.isPrefixOf (c :: rest) || containsSub pat rest

/-- `/(?:network|timeout|503|overloaded|try again)/i.test(message)`. -/
def isRetryableMsg (msg : String) : Bool :=
  let m := (jsToLower msg).data
  containsSub "network".data m || containsSub "timeout".data m
    || containsSub "503".data m || containsSub "overloaded".data m
    || containsSub "try again".data m

/-- The `for (attempt = 1; attempt <= MAX_RETRIES; attempt++)` loop of
`processSliceRealtime`, with the attempt outcomes supplied by `oracle`.
Returns the terminal outcome, the backoff delays slept (ms), and the number
of attempts made.  A retryable failure below the cap sleeps
`1000 * attempt` ms and retries; anything else leaves the loop at once. -/
def processSliceRealtime (oracle : Nat → AttemptResult) (attempt : Nat) (delays : List Nat) :
    SliceOutcome × List Nat × Nat :=
  match oracle attempt with
  | .vadSkip => (.skipped, delays, attempt)
  | .ok t => (.completed t, delays, attempt)
  | .aborted => (.abortedOut, delays, attempt)
  | .fail m =>
    if _hr : isRetryableMsg m && decide (attempt < MAX_RETRIES) then
      processSliceRealtime oracle (attempt + 1) (delays ++ [1000 * attempt])
    else (.errored m, delays, attempt)
termination_by MAX_RETRIES - attempt
decreasing_by
  simp only [Bool.and_eq_true, decide_eq_true_eq] at _hr
  omega

def runRealtime (oracle : Nat → AttemptResult) : SliceOutcome × List Nat × Nat :=
  processSliceRealtime oracle 1 []

/-! ## Session finalizer (`src/unnamed/part_001`: `handleStop` lines 161–218,
`finalizeRecording` lines 106–146) -/

/-- What one poll of `checkAndSave` reads from the refs: the slice count, the
status entries, and the accumulated transcript. -/
structure StopSnapshot where
  sliceCount : Nat
  statuses : List SliceStatusKind
  text : String

def allProcessed (s : StopSnapshot) : Bool :=
  decide (s.sliceCount ≤ s.statuses.length) && s.statuses.all isTerminal

/-- Result of the stop flow.  `saved`/`silentNoop` arise from
`finalizeRecording` inside the poll window; the `timeout*` outcomes from the
`checkCount >= MAX_CHECKS` branch.  Each constructor carries at most one
`saveTranscription` invocation, so "exactly once" is encoded by the type. -/
inductive StopOutcome
  | saved (text : String) (duration : ℚ)
  | silentNoop
  | noAudioNoop
  | timeoutSaved (text : String) (duration : ℚ)
  | timeoutProcessingError
deriving DecidableEq

/-- `finalizeRecording`: trim the accumulated text; empty means a warning
no-op, otherwise `saveTranscription(finalText, duration)` is called once. -/
def finalizeRecording (text : String) (duration : ℚ) : StopOutcome :=
  let finalText := jsTrim text
  if finalText = "" then .silentNoop else .saved finalText duration

def MAX_CHECKS : Nat := 60

/-- The `checkAndSave` poll loop; `world k` is what the `k`-th check (1-based,
after the `checkCount++`) reads from the refs. -/
def checkAndSave (world : Nat → StopSnapshot) (duration : ℚ) (checkCount : Nat) : StopOutcome :=
  let s := world checkCount
  if allProcessed s && decide (0 < s.sliceCount) then
    finalizeRecording s.text duration
  else if s.sliceCount = 0 then
    .noAudioNoop
  else if _h : MAX_CHECKS ≤ checkCount then
    if jsTrim s.text = "" then .timeoutProcessingError
    else .timeoutSaved (jsTrim s.text) duration
  else
    checkAndSave world duration (checkCount + 1)
termination_by MAX_CHECKS + 1 - checkCount
decreasing_by
  simp only [MAX_CHECKS] at *
  omega

/-! ## Voice activity gate (`src/unnamed/part_007`, `hasSpeech`) -/

def DEFAULT_AMPLITUDE_THRESHOLD : ℚ := 15 / 1000

def DEFAULT_RATIO_THRESHOLD : ℚ := 5 / 1000

/-- The sample analysis of `hasSpeech` over exact rationals.  The source
compares `Math.sqrt(sumSquares / n) >= amplitudeThreshold`; for the
nonnegative thresholds in use this is equivalent to comparing against the
squared threshold, which keeps the definition executable. -/
def analyzeSamples (amplitudeThreshold ratioThreshold : ℚ) (channelData : List ℚ) : Bool :=
  let n : ℚ := (channelData.length : ℚ)
  let sumSquares : ℚ := (channelData.map fun s => s * s).sum
  let aboveThresholdCount : ℚ :=
    ((channelData.countP fun s => decide (amplitudeThreshold ≤ |s|)) : Nat)
  decide (amplitudeThreshold ^ 2 ≤ sumSquares / n) || decide (ratioThreshold ≤ aboveThresholdCount / n)

/-- `hasSpeech`: without `window`/`AudioContext` return `true` unconditionally;
a `decodeAudioData` failure (`decoded = none`) is the `catch` branch, `true`;
successfully decoded but empty channel data returns `false`; otherwise the
energy test decides. -/
def hasSpeech (envHasAudioContext : Bool) (decoded : Option (List ℚ))
    (amplitudeThreshold ratioThreshold : ℚ) : Bool :=
  if !envHasAudioContext then true
  else
    match decoded with
    | none => true
    | some channelData =>
      if channelData.isEmpty then false
      else analyzeSamples amplitudeThreshold ratioThreshold channelData

/-- All-zero sample buffer of length `n`. -/
def zeroBuffer (n : Nat) : List ℚ :=
  List.replicate n 0

/-- One sample at amplitude `0.5`, all others zero, total length `n` (for
`n ≥ 1`). -/
def spikeBuffer (n : Nat) : List ℚ :=
  (1 / 2 : ℚ) :: List.replicate (n - 1) 0

/-! ## Post-transcription dedup tails of the two POST handlers
(`src/app/api/transcribe/route.ts` and the Whisper handler in
`src/unnamed/part_005`).  `validate` is the delegated semantic validation
call: `none` models it throwing (fall back to the heuristic text), `some v`
its cleaned result (empty meaning "wholly duplicate"). -/

/-- Whisper path (part_005, lines 395–460): heuristic clean; empty means
duplicate; then, with context, a similarity ratio above `0.90` returns empty
text directly; otherwise texts of more than 3 words go to the delegated
validation. -/
def whisperDedupTail (validate : String → String → Option String)
    (text0 : String) (previousContext : Option String) : String × Bool :=
  let text := removeDuplicatesHeuristic text0 previousContext
  if text = "" then ("", true)
  else
    match previousContext with
    | none => (text, false)
    | some prev =>
      if prev = "" then (text, false)
      else if (9 / 10 : ℚ) < calculateSimilarity text prev then ("", true)
      else if 3 < (jsSplitWs text).length then
        match validate text prev with
        | none => (text, false)
        | some v => if v = "" then ("", true) else (v, false)
      else (text, false)

/-- Gemini path (route.ts, lines 345–420; identically in part_005's Gemini
branch with threshold 0.85): heuristic clean; empty means duplicate; the
similarity ratio is computed and logged but has no effect on the result;
texts of more than 3 words with context go to the delegated validation. -/
def geminiDedupTail (validate : String → String → Option String)
    (text0 : String) (previousContext : Option String) : String × Bool :=
  let cleanedText := removeDuplicatesHeuristic text0 previousContext
  if cleanedText = "" then ("", true)
  else
    match previousContext with
    | none => (cleanedText, false)
    | some prev =>
      if prev = "" then (cleanedText, false)
      else if 3 < (jsSplitWs cleanedText).length then
        match validate cleanedText prev with
        | none => (cleanedText, false)
        | some v => if v = "" then ("", true) else (v, false)
      else (cleanedText, false)

/-! ## Theorems -/

/-- C9: a decode failure (the `catch` branch) makes `hasSpeech` fail open to
`true`, while a successfully decoded but empty/zero-length sample buffer
(`channelData.length === 0`, which also covers a missing channel) returns
`false` — for any thresholds. -/
theorem hasSpeech_fail_open (amplitudeThreshold ratioThreshold : ℚ) :
    hasSpeech true none amplitudeThreshold ratioThreshold = true
    ∧ hasSpeech true (some []) amplitudeThreshold ratioThreshold = false :=
  ⟨rfl, rfl⟩

/-- Witness for C9 at the default thresholds. -/
theorem hasSpeech_fail_open_witness :
    hasSpeech true none DEFAULT_AMPLITUDE_THRESHOLD DEFAULT_RATIO_THRESHOLD = true
    ∧ hasSpeech true (some []) DEFAULT_AMPLITUDE_THRESHOLD DEFAULT_RATIO_THRESHOLD = false :=
  hasSpeech_fail_open DEFAULT_AMPLITUDE_THRESHOLD DEFAULT_RATIO_THRESHOLD

/-- C10: when the runtime has no `window`/`AudioContext`, `hasSpeech` returns
`true` unconditionally, whatever the audio would have decoded to — no slice
is ever gated out as silent in such an environment. -/
theorem hasSpeech_no_audio_context (decoded : Option (List ℚ))
    (amplitudeThreshold ratioThreshold : ℚ) :
    hasSpeech false decoded amplitudeThreshold ratioThreshold = true := by
  cases decoded <;> rfl

/-- Witness for C10: even an all-zero (clearly silent) buffer passes. -/
theorem hasSpeech_no_audio_context_witness :
    hasSpeech false (some (zeroBuffer 100)) DEFAULT_AMPLITUDE_THRESHOLD
      DEFAULT_RATIO_THRESHOLD = true :=
  hasSpeech_no_audio_context (some (zeroBuffer 100)) DEFAULT_AMPLITUDE_THRESHOLD
    DEFAULT_RATIO_THRESHOLD

/-- C6: the overlap-removal heuristic maps a case-insensitive exact match of
the previous context to `""` (case 1), and when the new text begins with the
entire previous context it strips that leading part (case 2); in particular
`"hello world"` against context `"hello world"` cleans to `""`, and
`"the quick brown fox jumps"` against context `"the quick brown fox"`
cleans to `"jumps"`. -/
theorem removeDuplicatesHeuristic_overlap_cases :
    (∀ text prev : String, prev ≠ "" → text ≠ "" →
        jsTrim (jsToLower text) = jsTrim (jsToLower prev) →
        removeDuplicatesHeuristic text (some prev) = "")
    ∧ (∀ text prev : String, prev ≠ "" → text ≠ "" →
        jsTrim (jsToLower text) ≠ jsTrim (jsToLower prev) →
        jsStartsWith (jsTrim (jsToLower text)) (jsTrim (jsToLower prev)) = true →
        removeDuplicatesHeuristic text (some prev) = jsTrim (jsDrop text prev.data.length))
    ∧ removeDuplicatesHeuristic "hello world" (some "hello world") = ""
    ∧ removeDuplicatesHeuristic "the quick brown fox jumps" (some "the quick brown fox")
        = "jumps" := by
  refine ⟨?_, ?_, by decide, by decide⟩
  · intro text prev hp ht heq
    unfold removeDuplicatesHeuristic
    simp [hp, ht, heq]
  · intro text prev hp ht hne hsw
    unfold removeDuplicatesHeuristic
    simp [hp, ht, hne, hsw]

/-- Witness for C6's quantified clauses at concrete inputs. -/
theorem removeDuplicatesHeuristic_overlap_cases_witness :
    removeDuplicatesHeuristic "Hello World " (some "hello world") = ""
    ∧ removeDuplicatesHeuristic "abc def" (some "abc") = "def" := by
  constructor
  · exact removeDuplicatesHeuristic_overlap_cases.1 "Hello World " "hello world"
      (by decide) (by decide) (by decide)
  · exact (removeDuplicatesHeuristic_overlap_cases.2.1 "abc def" "abc"
      (by decide) (by decide) (by decide) (by decide)).trans (by decide)

/-- C5: on the real-time path, a first-attempt failure whose message matches
one of the retryable patterns is retried exactly once after a linear backoff
of `attempt × 1000 ms` (cap `MAX_RETRIES = 2`, so a second failure ends the
slice in `error` even if retryable), a success on the retry completes the
slice, and a non-retryable failure ends the slice in `error` immediately
with no backoff and no second attempt.  The listed patterns are exactly the
retryable ones. -/
theorem processSliceRealtime_retry_policy :
    (∀ (oracle : Nat → AttemptResult) (m : String), oracle 1 = .fail m →
        isRetryableMsg m = false →
        runRealtime oracle = (.errored m, [], 1))
    ∧ (∀ (oracle : Nat → AttemptResult) (m m' : String), oracle 1 = .fail m →
        isRetryableMsg m = true → oracle 2 = .fail m' →
        runRealtime oracle = (.errored m', [1000], 2))
    ∧ (∀ (oracle : Nat → AttemptResult) (m t : String), oracle 1 = .fail m →
        isRetryableMsg m = true → oracle 2 = .ok t →
        runRealtime oracle = (.completed t, [1000], 2))
    ∧ isRetryableMsg "Network error occurred" = true
    ∧ isRetryableMsg "Request timeout" = true
    ∧ isRetryableMsg "Transcription failed (HTTP 503)" = true
    ∧ isRetryableMsg "The model is overloaded" = true
    ∧ isRetryableMsg "Busy, please try again later" = true
    ∧ isRetryableMsg "Unauthorized" = false := by
  refine ⟨?_, ?_, ?_, by decide, by decide, by decide, by decide, by decide, by decide⟩
  · intro oracle m h1 hr
    rw [runRealtime, processSliceRealtime, h1]
    simp [hr]
  · intro oracle m m' h1 hr h2
    rw [runRealtime, processSliceRealtime, h1]
    rw [processSliceRealtime, h2]
    simp [hr, MAX_RETRIES]
  · intro oracle m t h1 hr h2
    rw [runRealtime, processSliceRealtime, h1]
    rw [processSliceRealtime, h2]
    simp [hr, MAX_RETRIES]

/-- Witness for C5 on concrete oracles. -/
theorem processSliceRealtime_retry_policy_witness :
    runRealtime (fun _ => .fail "Unauthorized") = (.errored "Unauthorized", [], 1)
    ∧ runRealtime (fun a => if a = 1 then .fail "Request timeout" else .ok "hi")
        = (.completed "hi", [1000], 2) := by
  constructor
  · exact processSliceRealtime_retry_policy.1 _ "Unauthorized" rfl (by decide)
  · exact processSliceRealtime_retry_policy.2.2.1 _ "Request timeout" "hi" rfl (by decide) rfl

/-- C4: the `AbortError` branch removes the request from the active set
without touching the status map, the text map or the error channel (in
particular it never flips the status to `error`); and after `reset` — the
one place that aborts in-flight requests — the abort handlers of any set of
in-flight slices leave no status entry at all, so no slice is left in
`processing`. -/
theorem abort_never_leaves_processing :
    (∀ (st : TranscriptionState) (i : Nat),
        (handleAbortError st i).statuses = st.statuses
        ∧ (handleAbortError st i).sliceTexts = st.sliceTexts
        ∧ (handleAbortError st i).errorMsg = st.errorMsg
        ∧ (st.active.Nodup → i ∉ (handleAbortError st i).active))
    ∧ (∀ (st : TranscriptionState) (abortedSlices : List Nat),
        (abortedSlices.foldl handleAbortError (resetTranscription st)).statuses = []
        ∧ (abortedSlices.foldl handleAbortError (resetTranscription st)).sliceTexts = []
        ∧ (abortedSlices.foldl handleAbortError (resetTranscription st)).active = []) := by
  constructor
  · intro st i
    refine ⟨rfl, rfl, rfl, fun hnd => ?_⟩
    exact hnd.not_mem_erase
  · intro st abortedSlices
    have main : ∀ (l : List Nat) (s : TranscriptionState),
        s.statuses = [] → s.sliceTexts = [] → s.active = [] →
        (l.foldl handleAbortError s).statuses = []
        ∧ (l.foldl handleAbortError s).sliceTexts = []
        ∧ (l.foldl handleAbortError s).active = [] := by
      intro l
      induction l with
      | nil => intro s h1 h2 h3; exact ⟨h1, h2, h3⟩
      | cons i rest ih =>
        intro s h1 h2 h3
        refine ih _ h1 h2 ?_
        simp [handleAbortError, h3]
    exact main abortedSlices _ rfl rfl rfl

/-- Witness for C4 at a concrete state and abort sequence. -/
theorem abort_never_leaves_processing_witness :
    (handleAbortError ⟨[(0, .processing)], [(0, "x")], [0, 1], "x", "x", true, none⟩ 0).statuses
        = [(0, .processing)]
    ∧ (([0, 1, 2].foldl handleAbortError
          (resetTranscription ⟨[(0, .processing)], [(0, "x")], [0, 1], "x", "x", true, none⟩)).statuses
        = []) := by
  constructor
  · exact (abort_never_leaves_processing.1 ⟨[(0, .processing)], [(0, "x")], [0, 1], "x", "x", true, none⟩ 0).1
  · exact (abort_never_leaves_processing.2 ⟨[(0, .processing)], [(0, "x")], [0, 1], "x", "x", true, none⟩ [0, 1, 2]).1

/-- C2 counterexample: at a finalization with no buffered audio data (the
`else` branch of `finalizeSlice`), the produced-slice list is unchanged —
no empty slice is emitted — and the slice counter is not advanced, refuting
"a slice is still produced (marked empty) and its sliceIndex is still
consumed". -/
theorem finalizeSlice_no_data_counterexample :
    (finalizeSlice ⟨[], 2, [(0, 5), (1, 7)], true, true, false⟩).produced = [(0, 5), (1, 7)]
    ∧ (finalizeSlice ⟨[], 2, [(0, 5), (1, 7)], true, true, false⟩).sliceCount = 2
    ∧ (finalizeSlice ⟨[], 2, [(0, 5), (1, 7)], true, true, false⟩).pendingSlice = false := by
  refine ⟨by decide, by decide, by decide⟩

/-- Helper for C2: every recorder event preserves the invariant that the
produced slice indices, in production order, are exactly `0, …, N-1`. -/
theorem producedIndices_step (st : RecorderState) (e : RecEvent)
    (h : st.produced.map Prod.fst = List.range st.sliceCount) :
    (stepRec st e).produced.map Prod.fst = List.range (stepRec st e).sliceCount := by
  have hfin : ∀ s : RecorderState, s.produced.map Prod.fst = List.range s.sliceCount →
      (finalizeSlice s).produced.map Prod.fst = List.range (finalizeSlice s).sliceCount := by
    intro s hs
    unfold finalizeSlice
    split
    · simp [hs, List.range_succ]
    · simpa using hs
  cases e with
  | data size =>
    simp only [stepRec, onDataAvailable]
    split
    · split
      · exact hfin _ (by simpa using h)
      · simpa using h
    · exact h
  | tick =>
    simp only [stepRec, createAudioSlice]
    split <;> simpa using h
  | pauseEv =>
    simp only [stepRec, pauseRecording]
    split <;> simpa using h
  | resumeEv =>
    simp only [stepRec, resumeRecording]
    split <;> simpa using h
  | stopEv =>
    simp only [stepRec, stopRecording]
    split <;> simpa using h

/-- C2 (amended): over every event sequence (boundary ticks, data arrivals of
any size, pause/resume/stop in any pattern) the produced `sliceIndex` values
are exactly `0, …, N-1` in order, with no gaps or repeats; and at a
finalization with no buffered data, no slice is produced and no index is
consumed (which is how contiguity is preserved — indices are assigned only
when a slice is actually emitted). -/
theorem sliceIndex_contiguous :
    (∀ st : RecorderState, st.chunks = [] →
        (finalizeSlice st).produced = st.produced
        ∧ (finalizeSlice st).sliceCount = st.sliceCount)
    ∧ (∀ events : List RecEvent,
        ((events.foldl stepRec initRecorder).produced.map Prod.fst)
          = List.range ((events.foldl stepRec initRecorder).sliceCount)) := by
  constructor
  · intro st h
    unfold finalizeSlice
    rw [h]
    exact ⟨rfl, rfl⟩
  · have main : ∀ (events : List RecEvent) (st : RecorderState),
        st.produced.map Prod.fst = List.range st.sliceCount →
        ((events.foldl stepRec st).produced.map Prod.fst)
          = List.range ((events.foldl stepRec st).sliceCount) := by
      intro events
      induction events with
      | nil => intro st h; simpa using h
      | cons e rest ih => intro st h; exact ih _ (producedIndices_step st e h)
    intro events
    exact main events initRecorder (by simp [initRecorder])

/-- Witness for C2's amended statement on a concrete session with a losing
restart race (tick with no data), a pause/resume, and a stop. -/
theorem sliceIndex_contiguous_witness :
    (finalizeSlice ⟨[], 4, [(0, 1), (1, 1), (2, 1), (3, 1)], true, true, false⟩).produced
        = [(0, 1), (1, 1), (2, 1), (3, 1)]
    ∧ ((([.data 3, .tick, .data 2, .tick, .pauseEv, .data 4, .resumeEv, .data 5, .stopEv, .data 1]
          : List RecEvent).foldl stepRec initRecorder).produced.map Prod.fst)
        = List.range ((([.data 3, .tick, .data 2, .tick, .pauseEv, .data 4, .resumeEv, .data 5, .stopEv, .data 1]
          : List RecEvent).foldl stepRec initRecorder).sliceCount) := by
  constructor
  · exact (sliceIndex_contiguous.1 ⟨[], 4, [(0, 1), (1, 1), (2, 1), (3, 1)], true, true, false⟩ rfl).1
  · exact sliceIndex_contiguous.2 [.data 3, .tick, .data 2, .tick, .pauseEv, .data 4, .resumeEv, .data 5, .stopEv, .data 1]

/-- Helper: the similarity ratio of two four-word anagram phrases is exactly
`1` (identical word sets, so intersection = union = 4). -/
theorem calculateSimilarity_anagram_one :
    calculateSimilarity "delta gamma beta alpha" "alpha beta gamma delta" = 1
    ∧ calculateSimilarity "echo foxtrot golf hotel" "hotel golf foxtrot echo" = 1 := by
  constructor
  · have hi : interCount "delta gamma beta alpha" "alpha beta gamma delta" = 4 := by decide
    have hu : unionCount "delta gamma beta alpha" "alpha beta gamma delta" = 4 := by decide
    rw [calculateSimilarity, if_neg (by decide), hi, hu]
    norm_num
  · have hi : interCount "echo foxtrot golf hotel" "hotel golf foxtrot echo" = 4 := by decide
    have hu : unionCount "echo foxtrot golf hotel" "hotel golf foxtrot echo" = 4 := by decide
    rw [calculateSimilarity, if_neg (by decide), hi, hu]
    norm_num

/-- Helper: in the Whisper handler, once the heuristic output is nonempty and
context exists, a ratio above 0.90 returns empty text with the duplicate
flag, for every validator. -/
theorem whisperDedupTail_simGate (validate : String → String → Option String)
    (text0 prev : String) (hne : removeDuplicatesHeuristic text0 (some prev) ≠ "")
    (hp : prev ≠ "")
    (hsim : (9 / 10 : ℚ) < calculateSimilarity (removeDuplicatesHeuristic text0 (some prev)) prev) :
    whisperDedupTail validate text0 (some prev) = ("", true) := by
  unfold whisperDedupTail
  simp [hne, hp, hsim]

/-- Helper: the Gemini handler returns the heuristic-cleaned text whenever
the validator keeps it verbatim or errors out — regardless of the
similarity value. -/
theorem geminiDedupTail_keeps (validate : String → String → Option String)
    (text0 prev : String) (hne : removeDuplicatesHeuristic text0 (some prev) ≠ "")
    (hp : prev ≠ "")
    (hv : validate (removeDuplicatesHeuristic text0 (some prev)) prev = none
        ∨ validate (removeDuplicatesHeuristic text0 (some prev)) prev
            = some (removeDuplicatesHeuristic text0 (some prev))) :
    geminiDedupTail validate text0 (some prev)
      = (removeDuplicatesHeuristic text0 (some prev), false) := by
  unfold geminiDedupTail
  rcases hv with hv | hv <;> simp [hne, hp, hv]

/-- C7 counterexample: in the Whisper handler, a similarity ratio above 0.90
erases the text by itself.  Here the heuristics leave the text untouched,
the delegated validator would have kept it verbatim, yet the handler returns
empty text with the `duplicate` flag purely because of the bag-of-words
ratio — refuting "a high ratio only flags and never erases; erasure is
decided only by the delegated semantic validation step". -/
theorem whisper_similarity_erasure_counterexample :
    whisperDedupTail (fun t _ => some t) "delta gamma beta alpha" (some "alpha beta gamma delta")
        = ("", true)
    ∧ removeDuplicatesHeuristic "delta gamma beta alpha" (some "alpha beta gamma delta")
        = "delta gamma beta alpha"
    ∧ calculateSimilarity "delta gamma beta alpha" "alpha beta gamma delta" = 1 := by
  have hheur : removeDuplicatesHeuristic "delta gamma beta alpha" (some "alpha beta gamma delta")
      = "delta gamma beta alpha" := by decide
  refine ⟨?_, hheur, calculateSimilarity_anagram_one.1⟩
  refine whisperDedupTail_simGate _ _ _ ?_ (by decide) ?_
  · rw [hheur]
    decide
  · rw [hheur, calculateSimilarity_anagram_one.1]
    norm_num

/-- C7 (amended): in the Gemini workflows (0.85 threshold) the similarity
ratio is computed only for logging — whatever its value (in particular above
0.85), the returned text is the heuristic-cleaned text whenever the
delegated validator keeps it or errors out; but in the Whisper workflow a
ratio above 0.90 returns empty text directly, without consulting the
validator. -/
theorem similarity_flag_policy :
    (∀ (text0 prev : String),
        removeDuplicatesHeuristic text0 (some prev) ≠ "" → prev ≠ "" →
        geminiDedupTail (fun t _ => some t) text0 (some prev)
          = (removeDuplicatesHeuristic text0 (some prev), false))
    ∧ (∀ (text0 prev : String),
        removeDuplicatesHeuristic text0 (some prev) ≠ "" → prev ≠ "" →
        geminiDedupTail (fun _ _ => none) text0 (some prev)
          = (removeDuplicatesHeuristic text0 (some prev), false))
    ∧ (∀ (validate : String → String → Option String) (text0 prev : String),
        removeDuplicatesHeuristic text0 (some prev) ≠ "" → prev ≠ "" →
        (9 / 10 : ℚ) < calculateSimilarity (removeDuplicatesHeuristic text0 (some prev)) prev →
        whisperDedupTail validate text0 (some prev) = ("", true)) := by
  refine ⟨?_, ?_, fun v t p h1 h2 h3 => whisperDedupTail_simGate v t p h1 h2 h3⟩
  · intro text0 prev hne hp
    exact geminiDedupTail_keeps _ text0 prev hne hp (Or.inr rfl)
  · intro text0 prev hne hp
    exact geminiDedupTail_keeps _ text0 prev hne hp (Or.inl rfl)

/-- Witness for C7's amended statement: a high-similarity input is kept by
the Gemini path yet erased by the Whisper path. -/
theorem similarity_flag_policy_witness :
    geminiDedupTail (fun t _ => some t) "delta gamma beta alpha" (some "alpha beta gamma delta")
        = ("delta gamma beta alpha", false)
    ∧ whisperDedupTail (fun t _ => some t) "echo foxtrot golf hotel" (some "hotel golf foxtrot echo")
        = ("", true) := by
  constructor
  · exact (similarity_flag_policy.1 "delta gamma beta alpha" "alpha beta gamma delta"
      (by decide) (by decide)).trans (by decide)
  · have hheur : removeDuplicatesHeuristic "echo foxtrot golf hotel" (some "hotel golf foxtrot echo")
        = "echo foxtrot golf hotel" := by decide
    refine similarity_flag_policy.2.2 (fun t _ => some t) "echo foxtrot golf hotel"
      "hotel golf foxtrot echo" (by rw [hheur]; decide) (by decide) ?_
    rw [hheur, calculateSimilarity_anagram_one.2]
    norm_num

/-- Helper for C3: if the refs hold a constant slice count `N > 0` and
constant text `T`, and some poll at or after the current one (and within the
window) sees every status terminal, the loop ends by calling
`finalizeRecording T`. -/
theorem checkAndSave_of_converged (world : Nat → StopSnapshot) (d : ℚ) (N : Nat) (T : String)
    (hN : ∀ j, (world j).sliceCount = N) (hT : ∀ j, (world j).text = T) (hpos : 0 < N) :
    ∀ (n c : Nat), c + n ≤ MAX_CHECKS → allProcessed (world (c + n)) = true →
      checkAndSave world d c = finalizeRecording T d := by
  intro n
  induction n with
  | zero =>
    intro c hck hall
    rw [Nat.add_zero] at hck hall
    rw [checkAndSave]
    simp [hall, hN c, hT c, hpos]
  | succ n ih =>
    intro c hck hall
    rw [checkAndSave]
    by_cases hc : (allProcessed (world c) && decide (0 < (world c).sliceCount)) = true
    · simp [hc, hT c]
    · have hnz : ¬((world c).sliceCount = 0) := by rw [hN c]; omega
      have hmax : ¬(MAX_CHECKS ≤ c) := by
        have h60 : MAX_CHECKS = 60 := rfl
        omega
      rw [if_neg hc, if_neg hnz, dif_neg hmax]
      refine ih (c + 1) (by omega) ?_
      rw [show c + 1 + n = c + (n + 1) by omega]
      exact hall

/-- C3: with a stable slice count `N > 0` and stable transcript `T`, if all
slices are terminal at some poll within the 60-poll window, the stop flow
invokes `saveTranscription` exactly once (encoded by the `saved` outcome)
with the trimmed transcript and the recorded duration; a converged session
with an empty trimmed transcript is the silent-recording no-op warning, and
a session with zero slices is the no-audio no-op warning — neither invokes
`saveTranscription` and neither is an error. -/
theorem handleStop_save_exactly_once :
    (∀ (world : Nat → StopSnapshot) (d : ℚ) (N : Nat) (T : String) (k : Nat),
        (∀ j, (world j).sliceCount = N) → (∀ j, (world j).text = T) → 0 < N →
        1 ≤ k → k ≤ MAX_CHECKS → allProcessed (world k) = true → jsTrim T ≠ "" →
        checkAndSave world d 1 = .saved (jsTrim T) d)
    ∧ (∀ (world : Nat → StopSnapshot) (d : ℚ) (N : Nat) (T : String) (k : Nat),
        (∀ j, (world j).sliceCount = N) → (∀ j, (world j).text = T) → 0 < N →
        1 ≤ k → k ≤ MAX_CHECKS → allProcessed (world k) = true → jsTrim T = "" →
        checkAndSave world d 1 = .silentNoop)
    ∧ (∀ (world : Nat → StopSnapshot) (d : ℚ),
        (world 1).sliceCount = 0 → checkAndSave world d 1 = .noAudioNoop) := by
  refine ⟨?_, ?_, ?_⟩
  · intro world d N T k hN hT hpos hk1 hk60 hall htrim
    have h := checkAndSave_of_converged world d N T hN hT hpos (k - 1) 1 (by omega)
      (by rw [show 1 + (k - 1) = k by omega]; exact hall)
    rw [h, finalizeRecording]
    simp [htrim]
  · intro world d N T k hN hT hpos hk1 hk60 hall htrim
    have h := checkAndSave_of_converged world d N T hN hT hpos (k - 1) 1 (by omega)
      (by rw [show 1 + (k - 1) = k by omega]; exact hall)
    rw [h, finalizeRecording]
    simp [htrim]
  · intro world d h0
    rw [checkAndSave]
    simp [h0]

/-- Witness for C3 on concrete converged, silent and empty sessions. -/
theorem handleStop_save_exactly_once_witness :
    checkAndSave (fun _ => ⟨2, [.completed, .skipped], " hello there "⟩) 7 1
        = .saved "hello there" 7
    ∧ checkAndSave (fun _ => ⟨1, [.skipped], ""⟩) 7 1 = .silentNoop
    ∧ checkAndSave (fun _ => ⟨0, [], ""⟩) 7 1 = .noAudioNoop := by
  refine ⟨?_, ?_, ?_⟩
  · have h := handleStop_save_exactly_once.1 (fun _ => ⟨2, [.completed, .skipped], " hello there "⟩)
      7 2 " hello there " 1 (fun _ => rfl) (fun _ => rfl) (by norm_num) (by norm_num)
      (by decide) (by decide) (by decide)
    rw [h, show jsTrim " hello there " = "hello there" from by decide]
  · exact handleStop_save_exactly_once.2.1 (fun _ => ⟨1, [.skipped], ""⟩)
      7 1 "" 1 (fun _ => rfl) (fun _ => rfl) (by norm_num) (by norm_num)
      (by decide) (by decide) (by decide)
  · exact handleStop_save_exactly_once.2.2 (fun _ => ⟨0, [], ""⟩) 7 rfl

/-- Helper: with `window.AudioContext` present and nonempty decoded data,
`hasSpeech` is the energy analysis. -/
theorem hasSpeech_some_nonempty (l : List ℚ) (a r : ℚ) (h : l.isEmpty = false) :
    hasSpeech true (some l) a r = analyzeSamples a r l := by
  simp [hasSpeech, h]

/-- Helper for C8: an all-zero decoded buffer of positive length is judged
silent. -/
theorem zeroBuffer_hasSpeech_false (n : Nat) (hn : 0 < n) :
    hasSpeech true (some (zeroBuffer n)) DEFAULT_AMPLITUDE_THRESHOLD DEFAULT_RATIO_THRESHOLD
      = false := by
  have hne : (zeroBuffer n).isEmpty = false := by
    simp [zeroBuffer, List.isEmpty_iff]
    omega
  have hsum : ((zeroBuffer n).map fun s => s * s).sum = 0 := by
    simp [zeroBuffer]
  have hcnt : (zeroBuffer n).countP
      (fun s => decide (DEFAULT_AMPLITUDE_THRESHOLD ≤ |s|)) = 0 := by
    refine List.countP_eq_zero.mpr ?_
    intro a ha
    rw [List.eq_of_mem_replicate ha]
    simp [DEFAULT_AMPLITUDE_THRESHOLD]
  have hA : ¬(DEFAULT_AMPLITUDE_THRESHOLD ^ 2
      ≤ (((zeroBuffer n).map fun s => s * s).sum) / ((zeroBuffer n).length : ℚ)) := by
    rw [hsum, zero_div, DEFAULT_AMPLITUDE_THRESHOLD]
    norm_num
  have hB : ¬(DEFAULT_RATIO_THRESHOLD
      ≤ (((zeroBuffer n).countP fun s => decide (DEFAULT_AMPLITUDE_THRESHOLD ≤ |s|)) : ℚ)
          / ((zeroBuffer n).length : ℚ)) := by
    rw [hcnt, Nat.cast_zero, zero_div, DEFAULT_RATIO_THRESHOLD]
    norm_num
  rw [hasSpeech_some_nonempty _ _ _ hne]
  simp only [analyzeSamples]
  rw [decide_eq_false hA, decide_eq_false hB]
  rfl

/-- Helper for C8: length of the spike buffer. -/
theorem spikeBuffer_length (n : Nat) (hn : 1 ≤ n) : (spikeBuffer n).length = n := by
  simp [spikeBuffer]
  omega

/-- Helper for C8: sum of squares of the spike buffer. -/
theorem spikeBuffer_sumSq (n : Nat) :
    ((spikeBuffer n).map fun s => s * s).sum = 1 / 4 := by
  simp [spikeBuffer]
  norm_num

/-- Helper for C8: the spike buffer has exactly one sample at or above the
default amplitude threshold. -/
theorem spikeBuffer_count (n : Nat) :
    (spikeBuffer n).countP (fun s => decide (DEFAULT_AMPLITUDE_THRESHOLD ≤ |s|)) = 1 := by
  rw [spikeBuffer, List.countP_cons]
  have h0 : (List.replicate (n - 1) (0 : ℚ)).countP
      (fun s => decide (DEFAULT_AMPLITUDE_THRESHOLD ≤ |s|)) = 0 := by
    refine List.countP_eq_zero.mpr ?_
    intro a ha
    rw [List.eq_of_mem_replicate ha]
    simp [DEFAULT_AMPLITUDE_THRESHOLD]
  have h1 : (decide (DEFAULT_AMPLITUDE_THRESHOLD ≤ |(1 / 2 : ℚ)|)) = true := by
    rw [decide_eq_true_eq, DEFAULT_AMPLITUDE_THRESHOLD]
    rw [show |(1 / 2 : ℚ)| = 1 / 2 from abs_of_pos (by norm_num)]
    norm_num
  rw [h0, h1]
  rfl

/-- Helper for C8: the spike buffer passes the gate via the RMS branch for
lengths up to 1111. -/
theorem spikeBuffer_hasSpeech_true (n : Nat) (h1 : 200 ≤ n) (h2 : n ≤ 1111) :
    hasSpeech true (some (spikeBuffer n)) DEFAULT_AMPLITUDE_THRESHOLD DEFAULT_RATIO_THRESHOLD
      = true := by
  have hnQ : (0 : ℚ) < ((spikeBuffer n).length : ℚ) := by
    rw [spikeBuffer_length n (by omega)]
    exact_mod_cast Nat.lt_of_lt_of_le (by norm_num) h1
  have hcast : ((spikeBuffer n).length : ℚ) ≤ 1111 := by
    rw [spikeBuffer_length n (by omega)]
    exact_mod_cast h2
  have hrms : DEFAULT_AMPLITUDE_THRESHOLD ^ 2
      ≤ (((spikeBuffer n).map fun s => s * s).sum) / ((spikeBuffer n).length : ℚ) := by
    rw [spikeBuffer_sumSq, le_div_iff₀ hnQ, DEFAULT_AMPLITUDE_THRESHOLD]
    nlinarith [hcast]
  have hne : (spikeBuffer n).isEmpty = false := by
    simp [spikeBuffer]
  rw [hasSpeech_some_nonempty _ _ _ hne]
  simp only [analyzeSamples]
  rw [decide_eq_true hrms]
  rfl

/-- Helper for C8: the spike buffer fails the gate for lengths of 1112 and
above — the RMS drops below threshold and the above-threshold ratio `1/n`
drops below the ratio threshold. -/
theorem spikeBuffer_hasSpeech_false (n : Nat) (h1 : 1112 ≤ n) :
    hasSpeech true (some (spikeBuffer n)) DEFAULT_AMPLITUDE_THRESHOLD DEFAULT_RATIO_THRESHOLD
      = false := by
  have hnQ : (0 : ℚ) < ((spikeBuffer n).length : ℚ) := by
    rw [spikeBuffer_length n (by omega)]
    exact_mod_cast Nat.lt_of_lt_of_le (by norm_num) h1
  have hcast : (1112 : ℚ) ≤ ((spikeBuffer n).length : ℚ) := by
    rw [spikeBuffer_length n (by omega)]
    exact_mod_cast h1
  have hrms : ¬(DEFAULT_AMPLITUDE_THRESHOLD ^ 2
      ≤ (((spikeBuffer n).map fun s => s * s).sum) / ((spikeBuffer n).length : ℚ)) := by
    rw [spikeBuffer_sumSq, DEFAULT_AMPLITUDE_THRESHOLD]
    rw [not_le, div_lt_iff₀ hnQ]
    nlinarith [hcast]
  have hratio : ¬(DEFAULT_RATIO_THRESHOLD
      ≤ (((spikeBuffer n).countP fun s => decide (DEFAULT_AMPLITUDE_THRESHOLD ≤ |s|)) : ℚ)
          / ((spikeBuffer n).length : ℚ)) := by
    rw [spikeBuffer_count, DEFAULT_RATIO_THRESHOLD]
    rw [not_le, div_lt_iff₀ hnQ]
    push_cast
    nlinarith [hcast]
  have hne : (spikeBuffer n).isEmpty = false := by
    simp [spikeBuffer]
  rw [hasSpeech_some_nonempty _ _ _ hne]
  simp only [analyzeSamples]
  rw [decide_eq_false hrms, decide_eq_false hratio]
  rfl

/-- C8 counterexample: the claim asserts the single-spike buffer passes the
gate at every length ≥ 200, but at length 1200 both branches fail (RMS
`sqrt(0.25/1200) ≈ 0.0144 < 0.015`, ratio `1/1200 < 0.005`) and the gate
returns `false`. -/
theorem hasSpeech_spike_length_counterexample :
    hasSpeech true (some (spikeBuffer 1200)) DEFAULT_AMPLITUDE_THRESHOLD DEFAULT_RATIO_THRESHOLD
        = false
    ∧ 200 ≤ 1200 :=
  ⟨spikeBuffer_hasSpeech_false 1200 (by norm_num), by norm_num⟩

/-- C8 (amended): under the default thresholds, an all-zero decoded buffer of
nonzero length yields `false`; the buffer with one sample at amplitude 0.5
and the rest zero yields `true` exactly for lengths 200 ≤ n ≤ 1111 (at 200
the ratio branch sits exactly at threshold and the RMS branch also passes;
beyond 1111 both branches fail and the gate returns `false`). -/
theorem hasSpeech_energy_gate :
    (∀ n, 0 < n →
        hasSpeech true (some (zeroBuffer n)) DEFAULT_AMPLITUDE_THRESHOLD
          DEFAULT_RATIO_THRESHOLD = false)
    ∧ (∀ n, 200 ≤ n → n ≤ 1111 →
        hasSpeech true (some (spikeBuffer n)) DEFAULT_AMPLITUDE_THRESHOLD
          DEFAULT_RATIO_THRESHOLD = true)
    ∧ (∀ n, 1112 ≤ n →
        hasSpeech true (some (spikeBuffer n)) DEFAULT_AMPLITUDE_THRESHOLD
          DEFAULT_RATIO_THRESHOLD = false) :=
  ⟨zeroBuffer_hasSpeech_false, spikeBuffer_hasSpeech_true, spikeBuffer_hasSpeech_false⟩

/-- Witness for C8's amended statement at concrete lengths. -/
theorem hasSpeech_energy_gate_witness :
    hasSpeech true (some (zeroBuffer 64)) DEFAULT_AMPLITUDE_THRESHOLD
        DEFAULT_RATIO_THRESHOLD = false
    ∧ hasSpeech true (some (spikeBuffer 200)) DEFAULT_AMPLITUDE_THRESHOLD
        DEFAULT_RATIO_THRESHOLD = true
    ∧ hasSpeech true (some (spikeBuffer 1111)) DEFAULT_AMPLITUDE_THRESHOLD
        DEFAULT_RATIO_THRESHOLD = true :=
  ⟨hasSpeech_energy_gate.1 64 (by norm_num),
   hasSpeech_energy_gate.2.1 200 (by norm_num) (by norm_num),
   hasSpeech_energy_gate.2.1 1111 (by norm_num) (by norm_num)⟩

/-- Helper: `foldl` only depends on the function's values at list members. -/
theorem foldl_congr_mem {α β : Type} (l : List β) (f g : α → β → α) (a : α)
    (h : ∀ b ∈ l, ∀ x, f x b = g x b) : l.foldl f a = l.foldl g a := by
  induction l generalizing a with
  | nil => rfl
  | cons b rest ih =>
    rw [List.foldl_cons, List.foldl_cons, h b (List.mem_cons_self b rest) a]
    exact ih _ fun b' hb' x => h b' (List.mem_cons_of_mem b hb') x

/-- Helper for C1: sorting an already strictly ascending key list is the
identity. -/
theorem sortAsc_eq_self (l : List Nat) (h : l.Pairwise (· < ·)) : sortAsc l = l := by
  induction l with
  | nil => rfl
  | cons k rest ih =>
    have hr : rest.Pairwise (· < ·) := h.of_cons
    have hstep : sortAsc (k :: rest) = insertSorted k (sortAsc rest) := rfl
    rw [hstep, ih hr]
    cases rest with
    | nil => rfl
    | cons x xs =>
      have hkx : k < x := (List.pairwise_cons.mp h).1 x (List.mem_cons_self x xs)
      simp [insertSorted, Nat.le_of_lt hkx]

/-- Helper for C1: map lookup at the head key. -/
theorem mapGet_cons_self (k : Nat) (v : String) (rest : List (Nat × String)) :
    mapGet ((k, v) :: rest) k = v := by
  rw [mapGet, List.find?_cons_of_pos _ (by simp)]
  rfl

/-- Helper for C1: map lookup skips a head entry with a different key. -/
theorem mapGet_cons_ne (k : Nat) (v : String) (rest : List (Nat × String)) (q : Nat)
    (h : q ≠ k) : mapGet ((k, v) :: rest) q = mapGet rest q := by
  rw [mapGet, List.find?_cons_of_neg _ (by simp [Ne.symm h])]
  rfl

/-- Helper for C1: folding the reassembly body over the sorted keys with map
lookups equals folding it directly over the stored values. -/
theorem foldl_mapGet (m : List (Nat × String)) :
    ∀ acc : String, (m.map Prod.fst).Nodup →
      (m.map Prod.fst).foldl (fun acc k => appendFrag acc (mapGet m k)) acc
        = (m.map Prod.snd).foldl appendFrag acc := by
  induction m with
  | nil => intro acc _; rfl
  | cons e rest ih =>
    intro acc hnd
    obtain ⟨k, v⟩ := e
    rw [List.map_cons, List.map_cons, List.foldl_cons, List.foldl_cons, mapGet_cons_self]
    have hk : k ∉ rest.map Prod.fst := (List.nodup_cons.mp hnd).1
    rw [foldl_congr_mem (rest.map Prod.fst)
      (fun acc q => appendFrag acc (mapGet ((k, v) :: rest) q))
      (fun acc q => appendFrag acc (mapGet rest q)) _
      (fun q hq x => by
        show appendFrag x (mapGet ((k, v) :: rest) q) = appendFrag x (mapGet rest q)
        rw [mapGet_cons_ne k v rest q (fun hqk => hk (hqk ▸ hq))])]
    exact ih _ (List.nodup_cons.mp hnd).2

/-- Helper for C1: empty fragments contribute nothing to the fold. -/
theorem foldl_appendFrag_filter (l : List String) :
    ∀ acc : String,
      l.foldl appendFrag acc = (l.filter fun t => 0 < t.data.length).foldl appendFrag acc := by
  induction l with
  | nil => intro acc; rfl
  | cons t rest ih =>
    intro acc
    by_cases ht : 0 < t.data.length
    · rw [List.foldl_cons, List.filter_cons, if_pos (by simpa using ht), List.foldl_cons]
      exact ih _
    · rw [List.foldl_cons, List.filter_cons, if_neg (by simpa using ht)]
      rw [show appendFrag acc t = acc from by rw [appendFrag, if_neg ht]]
      exact ih _

/-- Helper for C1: appending a nonempty string determines the last
character. -/
theorem endsWithSpace_append (a b : String) (hb : b.data ≠ []) :
    endsWithSpace (a ++ b) = endsWithSpace b := by
  simp only [endsWithSpace, String.data_append]
  rw [List.getLast?_append_of_ne_nil _ hb]

/-- Helper for C1: the imperative fold over nonempty fragments, started from
a nonempty accumulator, is the declarative pairwise join. -/
theorem foldl_appendFrag_join (frags : List String) :
    ∀ acc : String, acc.data ≠ [] → (∀ t ∈ frags, t.data ≠ []) →
      frags.foldl appendFrag acc
        = acc ++ specJoinAuxP endsWithSpace startsWithSpace (endsWithSpace acc) frags := by
  induction frags with
  | nil =>
    intro acc _ _
    rw [List.foldl_nil, specJoinAuxP, String.append_empty]
  | cons g rest ih =>
    intro acc ha hf
    have hg : g.data ≠ [] := hf g (List.mem_cons_self g rest)
    have hgl : 0 < g.data.length := List.length_pos.mpr hg
    have hal : 0 < acc.data.length := List.length_pos.mpr ha
    have hstep : appendFrag acc g
        = acc ++ ((if endsWithSpace acc || startsWithSpace g then "" else " ") ++ g) := by
      rw [appendFrag, if_pos hgl]
      simp only [decide_eq_true hal, Bool.true_and]
      cases he : endsWithSpace acc <;> cases hs : startsWithSpace g <;>
        simp [String.append_assoc]
    have hacc' : (acc ++ ((if endsWithSpace acc || startsWithSpace g then "" else " ") ++ g)).data
        ≠ [] := by
      simp [String.data_append, hg]
    rw [List.foldl_cons, hstep,
      ih _ hacc' (fun t ht => hf t (List.mem_cons_of_mem g ht))]
    have hend : endsWithSpace
        (acc ++ ((if endsWithSpace acc || startsWithSpace g then "" else " ") ++ g))
        = endsWithSpace g := by
      rw [show acc ++ ((if endsWithSpace acc || startsWithSpace g then "" else " ") ++ g)
          = (acc ++ (if endsWithSpace acc || startsWithSpace g then "" else " ")) ++ g from by
            rw [String.append_assoc],
        endsWithSpace_append _ _ hg]
    rw [hend, specJoinAuxP]
    simp [String.append_assoc]

/-- C1 counterexample: the claim's separator condition reads "… is already
whitespace", but the code tests specifically for the space character `' '`.
With fragment 0 ending in a newline, the code inserts a space even though
the boundary is already whitespace-adjacent, so the reassembled text differs
from the claim's whitespace-based concatenation. -/
theorem reassembleText_whitespace_counterexample :
    reassembleText [(0, "a\n"), (1, "b")] = "a\n b"
    ∧ reassembleClaimWhitespace [(0, "a\n"), (1, "b")] = "a\nb"
    ∧ ("a\n b" : String) ≠ "a\nb" :=
  ⟨by decide, by decide, by decide⟩

/-- C1 (amended): for every slice-text map (association list with strictly
ascending keys — the canonical form of the `Map`), the reassembled
transcript is the concatenation of the stored texts in ascending
`sliceIndex` order, with a single separating space between consecutive
non-empty fragments exactly where neither the earlier fragment's end nor
the next fragment's start is already the space character `' '` (the
accumulated text ends with the earlier fragment, so the two phrasings
agree), and empty fragments contribute nothing. -/
theorem reassembleText_eq_ordered_join (m : List (Nat × String))
    (hkeys : (m.map Prod.fst).Pairwise (· < ·)) :
    reassembleText m
      = specJoinP endsWithSpace startsWithSpace
          ((m.map Prod.snd).filter fun t => 0 < t.data.length) := by
  rw [reassembleText, sortAsc_eq_self _ hkeys,
    foldl_mapGet m "" (List.Pairwise.imp (fun h => Nat.ne_of_lt h) hkeys),
    foldl_appendFrag_filter]
  have hmem : ∀ t ∈ (m.map Prod.snd).filter fun t => 0 < t.data.length, t.data ≠ [] := by
    intro t ht
    have := List.of_mem_filter ht
    simp only [decide_eq_true_eq] at this
    exact List.length_pos.mp this
  cases hfr : (m.map Prod.snd).filter fun t => 0 < t.data.length with
  | nil => rfl
  | cons g rest =>
    rw [hfr] at hmem
    have hg : g.data ≠ [] := hmem g (List.mem_cons_self g rest)
    have hg0 : appendFrag "" g = g := by
      rw [appendFrag, if_pos (List.length_pos.mpr hg)]
      simp
    rw [List.foldl_cons, hg0,
      foldl_appendFrag_join rest g hg (fun t ht => hmem t (List.mem_cons_of_mem g ht))]
    rfl

/-- Witness for C1's amended statement on a concrete map with an empty
fragment and space-adjacent boundaries. -/
theorem reassembleText_eq_ordered_join_witness :
    reassembleText [(0, "hello "), (1, ""), (2, "there"), (5, " friend")]
      = specJoinP endsWithSpace startsWithSpace
          (([(0, "hello "), (1, ""), (2, "there"), (5, " friend")].map Prod.snd).filter
            fun t => 0 < t.data.length)
    ∧ reassembleText [(0, "hello "), (1, ""), (2, "there"), (5, " friend")]
        = "hello there friend" :=
  ⟨reassembleText_eq_ordered_join _ (by decide), by decide⟩

end VoiceKeyboard
